import Mathlib

/-!
Shallow embedding of the AI news aggregator's orchestration layer:

* the summarize route (`src/app/api/summarize/route.ts`): rolling-hash cache
  keys, a 5-minute TTL cache with an opportunistic sweep, provider dispatch
  with an outer catch-all error handler;
* the GitHub fetch route (`src/app/api/github/route.ts`): first-occurrence
  merge of per-query results, keyword post-filter, sort, truncation;
* the Hugging Face fetch route (`src/app/api/huggingface/route.ts`):
  JavaScript `||` fallback chains, popularity filter, sort;
* the frontend aggregator (`src/app/page.tsx`): fan-in of the two fetches.

Network effects are abstracted as explicit inputs: each route's handler is a
pure function of the data the upstream APIs would return (an oracle for the
LLM call), so every definition below is executable.
-/

/-- JavaScript truthiness of an optional string: `undefined` and `""` are
falsy, everything else is truthy. -/
def jsTruthy : Option String → Bool
  | none => false
  | some s => !(s == "")

/-- JavaScript `a || b` where `a` is an optional string: `b` when `a` is
absent (`undefined`) or empty, otherwise `a`. -/
def jsOrStr : Option String → String → String
  | none, d => d
  | some s, d => if s == "" then d else s

/-- JavaScript `a || b` on two plain strings (`""` is falsy). -/
def jsOrS (s d : String) : String := if s == "" then d else s

/-- The unified `Project` record produced by both fetch routes and consumed
by the frontend.  The optional `summary` field is attached client-side only
after a summarize call and is never set by either route, so it is not
modeled here. -/
structure Project where
  id : String
  name : String
  description : String
  url : String
  stars : Nat
  language : String
  topics : List String
  source : String
deriving DecidableEq, Repr

/-- The order implemented by the comparator `(a, b) => b.stars - a.stars`:
descending by stars. -/
def starsGE (a b : Project) : Prop := b.stars ≤ a.stars

instance : DecidableRel starsGE := fun a b => Nat.decLe b.stars a.stars

instance : IsTotal Project starsGE := ⟨fun a b => Nat.le_total b.stars a.stars⟩

instance : IsTrans Project starsGE := ⟨fun _ _ _ hab hbc => Nat.le_trans hbc hab⟩

/-- `.sort((a, b) => b.stars - a.stars)`: sort descending by stars. -/
def sortDesc (l : List Project) : List Project := l.insertionSort starsGE

namespace Summarize

/-- Cache value: summary text plus creation timestamp (milliseconds). -/
structure CacheEntry where
  summary : String
  timestamp : Nat
deriving DecidableEq, Repr

/-- `CACHE_DURATION`: five minutes, in milliseconds. -/
def CACHE_DURATION : Nat := 5 * 60 * 1000

/-- Coercion to a 32-bit signed integer, as produced by the JavaScript
expression `hash & hash`. -/
def toInt32 (i : Int) : Int := (i + 2147483648) % 4294967296 - 2147483648

/-- One step of the rolling hash: `hash = (hash << 5) - hash + char`, then
coercion back to 32 bits.  The `<< 5` shift is itself a 32-bit operation. -/
def hashStep (h : Int) (c : Nat) : Int := toInt32 (toInt32 (h * 32) - h + c)

/-- Digit characters of base 36: `0`-`9` then `a`-`z`. -/
def digit36 (d : Nat) : Char :=
  if d < 10 then Char.ofNat (48 + d) else Char.ofNat (87 + d)

/-- Base-36 digit expansion, structurally recursive on a fuel bound so that
it reduces inside the kernel. -/
def natToBase36Go : Nat → Nat → List Char → List Char
  | 0, _, acc => acc
  | fuel + 1, n, acc =>
    if n = 0 then acc else natToBase36Go fuel (n / 36) (digit36 (n % 36) :: acc)

/-- JavaScript `Number.prototype.toString(36)` on a natural number. -/
def natToBase36 (n : Nat) : String :=
  if n = 0 then "0" else String.mk (natToBase36Go (n + 1) n [])

/-- `toString(36)` on a possibly negative 32-bit value. -/
def intToBase36 (i : Int) : String :=
  if i < 0 then "-" ++ natToBase36 i.natAbs else natToBase36 i.toNat

/-- `hashText`: the rolling 32-bit hash of the text, rendered in base 36.
Characters are taken at their code-point values, which agrees with
JavaScript's UTF-16 code units on the Basic Multilingual Plane. -/
def hashText (text : String) : String :=
  intToBase36 (text.data.foldl (fun h c => hashStep h c.toNat) 0)

/-- The in-memory cache: an insertion-ordered key/value list modelling the
`Map<string, { summary, timestamp }>`. -/
abbrev Cache := List (String × CacheEntry)

/-- `cache.get(key)`. -/
def cacheGet (c : Cache) (k : String) : Option CacheEntry :=
  (c.find? (fun p => p.1 == k)).map (fun p => p.2)

/-- `cache.set(key, value)`: replace in place, or append a fresh entry. -/
def cacheSet (c : Cache) (k : String) (v : CacheEntry) : Cache :=
  if c.any (fun p => p.1 == k) then
    c.map (fun p => if p.1 == k then (k, v) else p)
  else c ++ [(k, v)]

/-- `cleanExpiredCache`: delete every entry whose age strictly exceeds
`CACHE_DURATION`. -/
def cleanExpiredCache (now : Nat) (c : Cache) : Cache :=
  c.filter (fun p => !decide (now - p.2.timestamp > CACHE_DURATION))

/-- The request body of `POST /api/summarize`; `none` models an absent
(`undefined`) field. -/
structure SummarizeRequest where
  text : Option String
  apiKey : Option String
  provider : Option String
deriving DecidableEq, Repr

/-- The JSON response of the route. -/
inductive SummarizeResponse where
  | ok (summary : String) (cached : Bool)
  | err (message : String) (status : Nat)
deriving DecidableEq, Repr

/-- The `cached` flag of a success response; `none` on an error response. -/
def SummarizeResponse.cachedFlag : SummarizeResponse → Option Bool
  | .ok _ c => some c
  | .err _ _ => none

/-- The three recognized providers of `summarizeWithLLM`. -/
def supportedProviders : List String := ["openai", "anthropic", "groq"]

/-- Outcome of one request: the response, the cache afterwards, and whether
an upstream provider call was issued. -/
structure PostOut where
  resp : SummarizeResponse
  cache : Cache
  upstreamCalled : Bool
deriving DecidableEq, Repr

/-- `summarizeWithLLM`: dispatch on the provider selector.  A supported
provider issues exactly one upstream call whose outcome (summary or thrown
error) is supplied by the `oracle`; an unrecognized provider throws before
any network activity.  The boolean records whether a call was made. -/
def summarizeWithLLM (oracle : String → String → String → Except String String)
    (text apiKey provider : String) : Except String String × Bool :=
  if provider ∈ supportedProviders then (oracle provider apiKey text, true)
  else (Except.error ("Unsupported provider: " ++ provider), false)

/-- The tail of the `POST` handler once the cache-hit check has failed:
credential check, provider dispatch, cache write on success, and the outer
`catch` that turns a thrown error into a 500 response. -/
def postMiss (oracle : String → String → String → Except String String)
    (now : Nat) (c : Cache) (key text : String)
    (apiKey provider : Option String) : PostOut :=
  if !(jsTruthy apiKey) then
    ⟨.err "API key is required. Please set it in Settings." 400, c, false⟩
  else
    match summarizeWithLLM oracle text (apiKey.getD "") (provider.getD "openai") with
    | (Except.ok s, called) => ⟨.ok s false, cacheSet c key ⟨s, now⟩, called⟩
    | (Except.error e, called) => ⟨.err e 500, c, called⟩

/-- `POST /api/summarize`, parameterized by the upstream oracle and the
clock: text validation, cache sweep, cache lookup with TTL check, then the
miss path. -/
def POST (oracle : String → String → String → Except String String)
    (now : Nat) (st : Cache) (req : SummarizeRequest) : PostOut :=
  if !(jsTruthy req.text) then ⟨.err "Text is required" 400, st, false⟩
  else
    let text := req.text.getD ""
    let c1 := cleanExpiredCache now st
    let key := hashText text
    match cacheGet c1 key with
    | some cached =>
      if now - cached.timestamp < CACHE_DURATION then
        ⟨.ok cached.summary true, c1, false⟩
      else postMiss oracle now c1 key text req.apiKey req.provider
    | none => postMiss oracle now c1 key text req.apiKey req.provider

/-- A stub upstream that reports failure for every provider call; used to
instantiate the oracle in concrete evaluations. -/
def noNet : String → String → String → Except String String :=
  fun provider _ _ => Except.error ("network unavailable: " ++ provider)

end Summarize

namespace Github

/-- The fields of one repository item returned by the search API.  Fields the
route guards with `||` are optional. -/
structure GitHubRepo where
  id : Nat
  name : String
  full_name : String
  description : Option String
  html_url : String
  stargazers_count : Nat
  language : Option String
  topics : Option (List String)
  created_at : String
  pushed_at : String
deriving DecidableEq, Repr

/-- Prefix test on character lists, the base of substring containment. -/
def isPrefixCharList : List Char → List Char → Bool
  | [], _ => true
  | _ :: _, [] => false
  | a :: as, b :: bs => a == b && isPrefixCharList as bs

/-- Substring containment on character lists. -/
def containsSub (needle : List Char) : List Char → Bool
  | [] => isPrefixCharList needle []
  | c :: rest => isPrefixCharList needle (c :: rest) || containsSub needle rest

/-- JavaScript `s.includes(sub)`: substring containment. -/
def jsIncludes (s sub : String) : Bool := containsSub sub.data s.data

/-- The fixed keyword set of the post-filter. -/
def aiKeywords : List String :=
  ["ai", "machine-learning", "artificial-intelligence", "ml",
   "deep-learning", "neural-network", "llm", "nlp"]

/-- The post-filter: lower-case the topics, join them with spaces, and test
each keyword for substring containment (JavaScript `includes`). -/
def hasAITopic (repo : GitHubRepo) : Bool :=
  let topicLower := String.intercalate " " ((repo.topics.getD []).map String.toLower)
  aiKeywords.any (fun k => jsIncludes topicLower k)

/-- The body of the per-repo `forEach`: insert into the `Map` keyed by
`full_name` only when the key is not yet present. -/
def addRepo (acc : List GitHubRepo) (repo : GitHubRepo) : List GitHubRepo :=
  if acc.any (fun r => r.full_name == repo.full_name) then acc
  else acc ++ [repo]

/-- Merge the per-query result lists, in query order, into the
insertion-ordered `Map` keyed by `full_name`: first occurrence wins. -/
def mergedRepos (results : List (List GitHubRepo)) : List GitHubRepo :=
  results.flatten.foldl addRepo []

/-- Map one repository to the unified `Project` shape. -/
def toProject (repo : GitHubRepo) : Project :=
  { id := toString repo.id
    name := repo.full_name
    description := jsOrStr repo.description "No description available"
    url := repo.html_url
    stars := repo.stargazers_count
    language := jsOrStr repo.language "Unknown"
    topics := repo.topics.getD []
    source := "github" }

/-- `GET /api/github` after the network phase, as a function of the per-query
item lists (a failed query contributes the empty list): merge, post-filter,
map, sort descending by stars, truncate to the top 50. -/
def GET (results : List (List GitHubRepo)) : List Project :=
  (sortDesc (((mergedRepos results).filter hasAITopic).map toProject)).take 50

end Github

namespace Huggingface

/-- The fields of one space item the route reads, each optional since the
raw JSON is accessed defensively (`space.card?.…`).  `card…` fields model
the nested `card` object's members. -/
structure HFSpace where
  id : Option String
  name : Option String
  description : Option String
  cardShortDescription : Option String
  cardDescription : Option String
  title : Option String
  likes : Option Nat
  likeCount : Option Nat
  like_count : Option Nat
  sdk : Option String
  cardSdk : Option String
deriving DecidableEq, Repr

/-- JavaScript `a || b` on an optional number: `undefined` and `0` are
falsy. -/
def jsOrNat : Option Nat → Nat → Nat
  | none, d => d
  | some n, d => if n = 0 then d else n

/-- `space.likes || space.likeCount || space.like_count || 0`. -/
def resolveLikes (s : HFSpace) : Nat :=
  jsOrNat s.likes (jsOrNat s.likeCount (jsOrNat s.like_count 0))

/-- `space.id || space.name || ''`. -/
def resolveId (s : HFSpace) : String := jsOrStr s.id (jsOrStr s.name "")

/-- The description fallback chain:
`description || card short || card description || title || id || ''`. -/
def resolveDescription (s : HFSpace) : String :=
  jsOrStr s.description (jsOrStr s.cardShortDescription (jsOrStr s.cardDescription
    (jsOrStr s.title (jsOrStr s.id ""))))

/-- Map one space to the unified `Project` shape. -/
def toHFProject (s : HFSpace) : Project :=
  { id := "hf_space_" ++ (resolveId s).replace "/" "_"
    name := resolveId s
    description := jsOrS (resolveDescription s)
      ("Interactive AI demo by " ++ jsOrS (((resolveId s).splitOn "/").headD "") "Hugging Face")
    url := "https://huggingface.co/spaces/" ++ resolveId s
    stars := resolveLikes s
    language := jsOrStr s.sdk (jsOrStr s.cardSdk "Gradio")
    topics := ["space", "demo", "ai"]
    source := "huggingface_spaces" }

/-- The body of the per-space `forEach`: push the mapped project exactly when
`likes > 0 && spaceId`. -/
def addSpace (acc : List Project) (s : HFSpace) : List Project :=
  if 0 < resolveLikes s ∧ resolveId s ≠ "" then acc ++ [toHFProject s] else acc

/-- The accumulation loop of the route. -/
def processSpaces (spaces : List HFSpace) : List Project :=
  spaces.foldl addSpace []

/-- `GET /api/huggingface` after the network phase, as a function of the
fetched space list: filter, map, sort descending by likes. -/
def GET (spaces : List HFSpace) : List Project := sortDesc (processSpaces spaces)

end Huggingface

namespace Page

/-- Outcome of one source fetch as seen by the frontend: a response that is
`ok` carrying its project list, or a failed response. -/
inductive FetchOutcome where
  | ok (projects : List Project)
  | failed
deriving DecidableEq, Repr

/-- `response.ok ? (await response.json()).projects : []`. -/
def FetchOutcome.projectsOrEmpty : FetchOutcome → List Project
  | .ok l => l
  | .failed => []

/-- The component state the handler leaves behind: the error banner and the
displayed project list. -/
structure FetchState where
  error : Option String
  projects : List Project
deriving DecidableEq, Repr

/-- `fetchProjects`: fan-in of the two source fetches.  Both failing throws
the single aggregate error (the list is left empty); otherwise the available
lists are concatenated, with no cross-source deduplication, and sorted
descending by stars. -/
def fetchProjects (github hub : FetchOutcome) : FetchState :=
  match github, hub with
  | .failed, .failed => ⟨some "Failed to fetch projects", []⟩
  | g, h => ⟨none, sortDesc (g.projectsOrEmpty ++ h.projectsOrEmpty)⟩

end Page

/-! ### General lemmas about the accumulation loops -/

/-- A fold whose step only ever appends extends its accumulator. -/
theorem foldl_extends {α β : Type} (f : List α → β → List α)
    (hf : ∀ acc b, ∃ t, f acc b = acc ++ t) :
    ∀ (l : List β) (acc : List α), ∃ t, l.foldl f acc = acc ++ t := by
  intro l
  induction l with
  | nil => intro acc; exact ⟨[], (List.append_nil acc).symm⟩
  | cons x xs ih =>
    intro acc
    rw [List.foldl_cons]
    obtain ⟨s, hs⟩ := hf acc x
    obtain ⟨t, ht⟩ := ih (f acc x)
    exact ⟨s ++ t, by rw [ht, hs, List.append_assoc]⟩

/-- `find?` is stable under a filter that keeps the found element. -/
theorem find?_filter_keep {α : Type} (p q : α → Bool) (l : List α) (a : α)
    (h : l.find? p = some a) (hq : q a = true) :
    (l.filter q).find? p = some a := by
  induction l with
  | nil => cases h
  | cons x xs ih =>
    by_cases hpx : p x = true
    · rw [List.find?_cons_of_pos _ hpx] at h
      injection h with h
      subst h
      rw [List.filter_cons_of_pos hq]
      exact List.find?_cons_of_pos _ hpx
    · rw [List.find?_cons_of_neg _ (by simpa using hpx)] at h
      by_cases hqx : q x = true
      · rw [List.filter_cons_of_pos hqx,
          List.find?_cons_of_neg _ (by simpa using hpx)]
        exact ih h
      · rw [List.filter_cons_of_neg (by simpa using hqx)]
        exact ih h

/-- A successful `find?` on a prefix settles `find?` on the whole list. -/
theorem find?_append_left {α : Type} (p : α → Bool) (l₁ l₂ : List α) (a : α)
    (h : l₁.find? p = some a) : (l₁ ++ l₂).find? p = some a := by
  rw [List.find?_append, h]
  rfl

/-- Two members of a list of length at most one coincide. -/
theorem mem_eq_of_length_le_one {α : Type} {l : List α} (h : l.length ≤ 1)
    {a b : α} (ha : a ∈ l) (hb : b ∈ l) : a = b := by
  match l with
  | [] => cases ha
  | [x] =>
    rw [List.mem_singleton] at ha hb
    rw [ha, hb]
  | x :: y :: rest =>
    simp only [List.length_cons] at h
    omega

/-- A member of a list of length at most one is its only element. -/
theorem eq_singleton_of_length_le_one {α : Type} {l : List α} (h : l.length ≤ 1)
    {a : α} (ha : a ∈ l) : l = [a] := by
  match l with
  | [] => cases ha
  | [x] => rw [List.mem_singleton] at ha; rw [ha]
  | x :: y :: rest =>
    simp only [List.length_cons] at h
    omega

namespace Summarize

/-! ### Cache lemmas -/

/-- A live entry found in the cache is still found after the sweep. -/
theorem cacheGet_clean_of_live (now : Nat) (st : Cache) (k : String)
    (e : CacheEntry) (hget : cacheGet st k = some e)
    (hlive : now - e.timestamp < CACHE_DURATION) :
    cacheGet (cleanExpiredCache now st) k = some e := by
  unfold cacheGet at hget ⊢
  obtain ⟨pr, hfind, hpr⟩ : ∃ pr, st.find? (fun p => p.1 == k) = some pr ∧ pr.2 = e := by
    cases hf : st.find? (fun p => p.1 == k) with
    | none => rw [hf] at hget; cases hget
    | some pr =>
      rw [hf] at hget
      exact ⟨pr, rfl, by simpa using hget⟩
  have hkeep : (fun p : String × CacheEntry =>
      !decide (now - p.2.timestamp > CACHE_DURATION)) pr = true := by
    have hno : ¬(now - pr.2.timestamp > CACHE_DURATION) := by
      rw [hpr]
      exact fun hgt => absurd hlive (Nat.lt_asymm hgt)
    simpa using hno
  rw [cleanExpiredCache, find?_filter_keep _ _ st pr hfind hkeep]
  simp [hpr]

/-- Any entry surviving the sweep came from the original cache. -/
theorem cacheGet_clean_mem (now : Nat) (st : Cache) (k : String) (e : CacheEntry)
    (hget : cacheGet (cleanExpiredCache now st) k = some e) :
    (k, e) ∈ st ∧ ¬(now - e.timestamp > CACHE_DURATION) := by
  unfold cacheGet cleanExpiredCache at hget
  obtain ⟨pr, hfind, hpr⟩ : ∃ pr,
      (st.filter (fun p => !decide (now - p.2.timestamp > CACHE_DURATION))).find?
        (fun p => p.1 == k) = some pr ∧ pr.2 = e := by
    cases hf : (st.filter (fun p => !decide (now - p.2.timestamp > CACHE_DURATION))).find?
        (fun p => p.1 == k) with
    | none => rw [hf] at hget; cases hget
    | some pr =>
      rw [hf] at hget
      exact ⟨pr, rfl, by simpa using hget⟩
  have hmem := List.mem_of_find?_eq_some hfind
  have hkey := List.find?_some hfind
  rw [List.mem_filter] at hmem
  have hk : pr.1 = k := by simpa using hkey
  have hfresh : ¬(now - pr.2.timestamp > CACHE_DURATION) := by simpa using hmem.2
  have hpair : pr = (k, e) := by
    cases pr with
    | mk a b =>
      simp only [Prod.mk.injEq]
      exact ⟨hk, hpr⟩
  exact ⟨hpair ▸ hmem.1, hpr ▸ hfresh⟩

/-- When every entry stored at the key is expired, the sweep purges it. -/
theorem cacheGet_clean_of_expired (now : Nat) (st : Cache) (k : String)
    (h : ∀ pr ∈ st, pr.1 = k → now - pr.2.timestamp > CACHE_DURATION) :
    cacheGet (cleanExpiredCache now st) k = none := by
  cases hf : cacheGet (cleanExpiredCache now st) k with
  | none => rfl
  | some e =>
    obtain ⟨hmem, hfresh⟩ := cacheGet_clean_mem now st k e hf
    exact absurd (h (k, e) hmem rfl) hfresh

/-- Non-empty text passes the request validation. -/
theorem jsTruthy_some_of_ne (t : String) (ht : t ≠ "") :
    jsTruthy (some t) = true := by
  simp [jsTruthy, ht]

/-- `POST` on a live cache hit: the cached summary is returned with
`cached = true`, the cache is merely swept, and no upstream call happens. -/
theorem POST_hit (oracle : String → String → String → Except String String)
    (now : Nat) (st : Cache) (t : String) (apiKey provider : Option String)
    (e : CacheEntry) (ht : t ≠ "") (hget : cacheGet st (hashText t) = some e)
    (hlive : now - e.timestamp < CACHE_DURATION) :
    POST oracle now st ⟨some t, apiKey, provider⟩ =
      ⟨.ok e.summary true, cleanExpiredCache now st, false⟩ := by
  have hkey := cacheGet_clean_of_live now st (hashText t) e hget hlive
  unfold POST
  rw [show jsTruthy (⟨some t, apiKey, provider⟩ : SummarizeRequest).text = true from
    jsTruthy_some_of_ne t ht]
  simp only [Bool.not_true, Bool.false_eq_true, if_false, Option.getD_some]
  split
  · rename_i cached hc
    rw [hkey] at hc
    injection hc with hc
    subst hc
    rw [if_pos hlive]
  · rename_i hc
    rw [hkey] at hc
    cases hc

/-- `POST` when no live entry exists at the key: the handler runs the miss
path on the swept cache. -/
theorem POST_toMiss (oracle : String → String → String → Except String String)
    (now : Nat) (st : Cache) (t : String) (apiKey provider : Option String)
    (ht : t ≠ "")
    (hmiss : ∀ pr ∈ st, pr.1 = hashText t → ¬(now - pr.2.timestamp < CACHE_DURATION)) :
    POST oracle now st ⟨some t, apiKey, provider⟩ =
      postMiss oracle now (cleanExpiredCache now st) (hashText t) t apiKey provider := by
  unfold POST
  rw [show jsTruthy (⟨some t, apiKey, provider⟩ : SummarizeRequest).text = true from
    jsTruthy_some_of_ne t ht]
  simp only [Bool.not_true, Bool.false_eq_true, if_false, Option.getD_some]
  split
  · rename_i cached hc
    obtain ⟨hmem, _⟩ := cacheGet_clean_mem now st (hashText t) cached hc
    have hstale : ¬(now - cached.timestamp < CACHE_DURATION) :=
      hmiss (hashText t, cached) hmem rfl
    rw [if_neg hstale]
  · rfl

/-- The miss path never reports a cache hit. -/
theorem postMiss_cachedFlag (oracle : String → String → String → Except String String)
    (now : Nat) (c : Cache) (key text : String) (apiKey provider : Option String) :
    (postMiss oracle now c key text apiKey provider).resp.cachedFlag ≠ some true := by
  unfold postMiss
  by_cases hk : jsTruthy apiKey = true
  · rw [hk]
    cases hr : summarizeWithLLM oracle text (apiKey.getD "") (provider.getD "openai") with
    | mk r called =>
      cases r with
      | ok s => simp [SummarizeResponse.cachedFlag]
      | error e => simp [SummarizeResponse.cachedFlag]
  · rw [Bool.not_eq_true] at hk
    rw [hk]
    simp [SummarizeResponse.cachedFlag]

end Summarize

namespace Github

/-! ### Merge-loop lemmas -/

/-- The merge step only ever appends. -/
theorem addRepo_extends (acc : List GitHubRepo) (r : GitHubRepo) :
    ∃ t, addRepo acc r = acc ++ t := by
  unfold addRepo
  split
  · exact ⟨[], (List.append_nil acc).symm⟩
  · exact ⟨[r], rfl⟩

/-- First occurrence wins: if the accumulator holds nothing under the name
and the stream's first item under the name is `r`, the loop keeps `r` as the
name's entry. -/
theorem foldl_addRepo_find? (n : String) (l : List GitHubRepo) :
    ∀ (acc : List GitHubRepo) (r : GitHubRepo),
      acc.any (fun x => x.full_name == n) = false →
      l.find? (fun x => x.full_name == n) = some r →
      (l.foldl addRepo acc).find? (fun x => x.full_name == n) = some r := by
  induction l with
  | nil => intro acc r _ h; cases h
  | cons x xs ih =>
    intro acc r hacc h
    rw [List.foldl_cons]
    by_cases hx : (x.full_name == n) = true
    · simp only [List.find?_cons, hx, Option.some.injEq] at h
      subst h
      have hname : x.full_name = n := by simpa using hx
      have hanyx : acc.any (fun y => y.full_name == x.full_name) = false := by
        rw [hname]; exact hacc
      have hstep : addRepo acc x = acc ++ [x] := by
        unfold addRepo
        rw [hanyx]
        simp
      have haccnone : acc.find? (fun y => y.full_name == n) = none := by
        rw [List.find?_eq_none]
        intro y hy
        simpa using List.any_eq_false.mp hacc y hy
      have hfound : (acc ++ [x]).find? (fun y => y.full_name == n) = some x := by
        rw [List.find?_append, haccnone]
        simp [List.find?_singleton, hx]
      obtain ⟨t, hts⟩ := foldl_extends addRepo addRepo_extends xs (acc ++ [x])
      rw [hstep, hts]
      exact find?_append_left _ _ _ _ hfound
    · rw [Bool.not_eq_true] at hx
      simp only [List.find?_cons, hx] at h
      have hacc' : (addRepo acc x).any (fun y => y.full_name == n) = false := by
        unfold addRepo
        split
        · exact hacc
        · simp [List.any_append, hacc, List.any_cons, hx]
      exact ih (addRepo acc x) r hacc' h

/-- The loop keeps at most one entry under each name. -/
theorem foldl_addRepo_uniq (n : String) (l : List GitHubRepo) :
    ∀ acc : List GitHubRepo,
      (acc.filter (fun x => x.full_name == n)).length ≤ 1 →
      ((l.foldl addRepo acc).filter (fun x => x.full_name == n)).length ≤ 1 := by
  induction l with
  | nil => intro acc h; exact h
  | cons x xs ih =>
    intro acc h
    rw [List.foldl_cons]
    refine ih (addRepo acc x) ?_
    unfold addRepo
    split
    · exact h
    · rename_i hany
      rw [List.filter_append]
      by_cases hx : (x.full_name == n) = true
      · have hname : x.full_name = n := by simpa using hx
        have hnil : acc.filter (fun y => y.full_name == n) = [] := by
          rw [List.filter_eq_nil_iff]
          intro y hy hcon
          exact hany (List.any_eq_true.mpr ⟨y, hy, by rw [hname]; exact hcon⟩)
        rw [hnil, List.nil_append]
        simp [List.filter_cons, hx]
      · rw [Bool.not_eq_true] at hx
        have hxnil : List.filter (fun y => y.full_name == n) [x] = [] := by
          simp [List.filter_cons, hx]
        rw [hxnil, List.append_nil]
        exact h

/-- `mergedRepos` holds at most one repository per `full_name`. -/
theorem mergedRepos_uniq (results : List (List GitHubRepo)) (n : String) :
    ((mergedRepos results).filter (fun x => x.full_name == n)).length ≤ 1 :=
  foldl_addRepo_uniq n results.flatten [] (by simp)

/-- Two same-named members of the merged mapping coincide. -/
theorem mergedRepos_name_inj (results : List (List GitHubRepo))
    {a b : GitHubRepo} (ha : a ∈ mergedRepos results) (hb : b ∈ mergedRepos results)
    (hab : a.full_name = b.full_name) : a = b := by
  refine mem_eq_of_length_le_one (mergedRepos_uniq results b.full_name) ?_ ?_
  · exact List.mem_filter.mpr ⟨ha, by simpa using hab⟩
  · exact List.mem_filter.mpr ⟨hb, by simp⟩

end Github

namespace Huggingface

/-! ### Accumulation-loop lemmas -/

/-- The push step only ever appends. -/
theorem addSpace_extends (acc : List Project) (s : HFSpace) :
    ∃ t, addSpace acc s = acc ++ t := by
  unfold addSpace
  split
  · exact ⟨[toHFProject s], rfl⟩
  · exact ⟨[], (List.append_nil acc).symm⟩

/-- Every project the loop accumulates passes the popularity/id guard. -/
theorem processSpaces_stars_pos (spaces : List HFSpace) :
    ∀ (acc : List Project),
      (∀ p ∈ acc, 0 < p.stars ∧ p.name ≠ "") →
      ∀ p ∈ spaces.foldl addSpace acc, 0 < p.stars ∧ p.name ≠ "" := by
  induction spaces with
  | nil => intro acc hacc p hp; exact hacc p hp
  | cons s rest ih =>
    intro acc hacc p hp
    rw [List.foldl_cons] at hp
    refine ih (addSpace acc s) ?_ p hp
    intro q hq
    unfold addSpace at hq
    by_cases hg : 0 < resolveLikes s ∧ resolveId s ≠ ""
    · rw [if_pos hg] at hq
      rcases List.mem_append.mp hq with hq | hq
      · exact hacc q hq
      · rw [List.mem_singleton] at hq
        subst hq
        exact hg
    · rw [if_neg hg] at hq
      exact hacc q hq

/-- A space passing the guard contributes its mapped project. -/
theorem processSpaces_mem (spaces : List HFSpace) :
    ∀ (acc : List Project) (s : HFSpace), s ∈ spaces →
      0 < resolveLikes s → resolveId s ≠ "" →
      toHFProject s ∈ spaces.foldl addSpace acc := by
  induction spaces with
  | nil => intro acc s hs; cases hs
  | cons x rest ih =>
    intro acc s hs hl hid
    rw [List.foldl_cons]
    rcases List.mem_cons.mp hs with hs | hs
    · subst hs
      have hstep : addSpace acc s = acc ++ [toHFProject s] := by
        unfold addSpace
        rw [if_pos ⟨hl, hid⟩]
      obtain ⟨t, hts⟩ := foldl_extends addSpace addSpace_extends rest (addSpace acc s)
      rw [hts, hstep, List.append_assoc]
      exact List.mem_append_right _ (List.mem_append_left _ (List.mem_singleton.mpr rfl))
    · exact ih (addSpace acc x) s hs hl hid

end Huggingface

/-! ### Claims about the summarize route -/

/-- C1 (counterexample): the claim quantifies over every summarize request
whose text hashes to a key holding a live cache entry, but the empty-string
text hashes to the key "0", and such a request is rejected by the text
validation even while a live entry sits at that key — no cached summary is
returned. -/
theorem C1_counterexample :
    Summarize.hashText "" = "0" ∧
    Summarize.cacheGet [("0", ⟨"S", 0⟩)] "0" = some ⟨"S", 0⟩ ∧
    (0 : Nat) - 0 < Summarize.CACHE_DURATION ∧
    (Summarize.POST Summarize.noNet 0 [("0", ⟨"S", 0⟩)]
        ⟨some "", some "k", some "openai"⟩).resp =
      Summarize.SummarizeResponse.err "Text is required" 400 := by
  refine ⟨by decide, by decide, by decide, by decide⟩

/-- C1 (amended): for every summarize request with non-empty text whose text
hashes to a key holding a cache entry of age strictly below five minutes,
the handler returns that entry's summary with cached = true and issues no
upstream provider call, regardless of the supplied credential or
provider. -/
theorem C1_cached_hit (oracle : String → String → String → Except String String)
    (now : Nat) (st : Summarize.Cache) (t : String)
    (apiKey provider : Option String) (e : Summarize.CacheEntry)
    (ht : t ≠ "")
    (hget : Summarize.cacheGet st (Summarize.hashText t) = some e)
    (hlive : now - e.timestamp < Summarize.CACHE_DURATION) :
    Summarize.POST oracle now st ⟨some t, apiKey, provider⟩ =
      ⟨.ok e.summary true, Summarize.cleanExpiredCache now st, false⟩ :=
  Summarize.POST_hit oracle now st t apiKey provider e ht hget hlive

/-- C1 (witness): a concrete live cache hit, with a credential and provider
supplied, served from the cache with no upstream call. -/
theorem C1_witness :
    Summarize.POST Summarize.noNet 0 [("2p", ⟨"a cached summary", 0⟩)]
        ⟨some "a", some "irrelevant-key", some "groq"⟩ =
      ⟨.ok "a cached summary" true,
        Summarize.cleanExpiredCache 0 [("2p", ⟨"a cached summary", 0⟩)], false⟩ :=
  C1_cached_hit Summarize.noNet 0 _ "a" (some "irrelevant-key") (some "groq")
    ⟨"a cached summary", 0⟩ (by decide) (by decide) (by decide)

/-- C2 (counterexample): an unsupported provider with non-empty text and
credential and an empty cache yields the "Unsupported provider" message with
no upstream call, but through the outer catch with server-error status 500,
not with a client-error status as the claim states. -/
theorem C2_counterexample :
    Summarize.POST Summarize.noNet 0 [] ⟨some "hello", some "k", some "cohere"⟩ =
      ⟨.err "Unsupported provider: cohere" 500, [], false⟩ := by
  decide

/-- C2 (amended): for every summarize request with non-empty text, non-empty
credential, no live cache entry at the text's key, and a provider outside
the supported set, the handler fails with the "Unsupported provider" error
and makes no network call; the response carries the server-error status 500
produced by the outer catch, not a client-error status. -/
theorem C2_unsupported_provider
    (oracle : String → String → String → Except String String)
    (now : Nat) (st : Summarize.Cache) (t k p : String)
    (ht : t ≠ "") (hk : k ≠ "") (hp : p ∉ Summarize.supportedProviders)
    (hmiss : ∀ pr ∈ st, pr.1 = Summarize.hashText t →
      ¬(now - pr.2.timestamp < Summarize.CACHE_DURATION)) :
    Summarize.POST oracle now st ⟨some t, some k, some p⟩ =
      ⟨.err ("Unsupported provider: " ++ p) 500,
        Summarize.cleanExpiredCache now st, false⟩ := by
  rw [Summarize.POST_toMiss oracle now st t (some k) (some p) ht hmiss]
  unfold Summarize.postMiss
  rw [show jsTruthy (some k) = true from by simp [jsTruthy, hk]]
  simp only [Bool.not_true, Bool.false_eq_true, if_false, Option.getD_some]
  unfold Summarize.summarizeWithLLM
  rw [if_neg hp]

/-- C2 (witness): a concrete unsupported provider, rejected with status 500
and no upstream call. -/
theorem C2_witness :
    Summarize.POST Summarize.noNet 5 [] ⟨some "text", some "sk-1", some "mistral"⟩ =
      ⟨.err "Unsupported provider: mistral" 500, [], false⟩ :=
  C2_unsupported_provider Summarize.noNet 5 [] "text" "sk-1" "mistral"
    (by decide) (by decide) (by decide) (by simp)

/-- C3 (counterexample): the claim covers every summarize request, but an
empty-text request is rejected before the sweep runs, so the expired entry
sitting at the empty text's key "0" is not purged by that request. -/
theorem C3_counterexample :
    Summarize.hashText "" = "0" ∧
    (400000 : Nat) - 0 > Summarize.CACHE_DURATION ∧
    (Summarize.POST Summarize.noNet 400000 [("0", ⟨"S", 0⟩)]
      ⟨some "", none, none⟩).cache = [("0", ⟨"S", 0⟩)] := by
  refine ⟨by decide, by decide, by decide⟩

/-- C3 (amended): for every summarize request with non-empty text, when
every cache entry stored at the text's key is older than the TTL, the sweep
purges the key, the handler behaves exactly as the cache-miss path run on
the swept cache (credential check, provider dispatch), and the response
never reports cached = true. -/
theorem C3_expired_is_miss
    (oracle : String → String → String → Except String String)
    (now : Nat) (st : Summarize.Cache) (t : String)
    (apiKey provider : Option String)
    (ht : t ≠ "")
    (hexp : ∀ pr ∈ st, pr.1 = Summarize.hashText t →
      now - pr.2.timestamp > Summarize.CACHE_DURATION) :
    Summarize.cacheGet (Summarize.cleanExpiredCache now st)
        (Summarize.hashText t) = none ∧
    Summarize.POST oracle now st ⟨some t, apiKey, provider⟩ =
      Summarize.postMiss oracle now (Summarize.cleanExpiredCache now st)
        (Summarize.hashText t) t apiKey provider ∧
    (Summarize.POST oracle now st
      ⟨some t, apiKey, provider⟩).resp.cachedFlag ≠ some true := by
  have hmiss : ∀ pr ∈ st, pr.1 = Summarize.hashText t →
      ¬(now - pr.2.timestamp < Summarize.CACHE_DURATION) :=
    fun pr hpr hk => Nat.lt_asymm (hexp pr hpr hk)
  have hpost := Summarize.POST_toMiss oracle now st t apiKey provider ht hmiss
  refine ⟨Summarize.cacheGet_clean_of_expired now st _ hexp, hpost, ?_⟩
  rw [hpost]
  exact Summarize.postMiss_cachedFlag oracle now _ _ t apiKey provider

/-- C3 (witness): a concrete expired entry is purged and the request follows
the miss path without reporting a cache hit. -/
theorem C3_witness :
    Summarize.cacheGet (Summarize.cleanExpiredCache 400000 [("2p", ⟨"old", 0⟩)])
        (Summarize.hashText "a") = none ∧
    Summarize.POST Summarize.noNet 400000 [("2p", ⟨"old", 0⟩)]
        ⟨some "a", none, none⟩ =
      Summarize.postMiss Summarize.noNet 400000
        (Summarize.cleanExpiredCache 400000 [("2p", ⟨"old", 0⟩)])
        (Summarize.hashText "a") "a" none none ∧
    (Summarize.POST Summarize.noNet 400000 [("2p", ⟨"old", 0⟩)]
      ⟨some "a", none, none⟩).resp.cachedFlag ≠ some true :=
  C3_expired_is_miss Summarize.noNet 400000 _ "a" none none
    (by decide) (by decide)

/-- C4: a summarize request whose text is absent or empty is rejected with
the validation error and client-error status 400; the cache is left
untouched (no sweep, no read) and no upstream call is attempted. -/
theorem C4_empty_text_rejected
    (oracle : String → String → String → Except String String)
    (now : Nat) (st : Summarize.Cache) (req : Summarize.SummarizeRequest)
    (h : jsTruthy req.text = false) :
    Summarize.POST oracle now st req =
      ⟨.err "Text is required" 400, st, false⟩ := by
  unfold Summarize.POST
  rw [h]
  rfl

/-- C4 (witness): a request with an absent text field is rejected and the
cache (holding one entry) is returned unchanged. -/
theorem C4_witness :
    Summarize.POST Summarize.noNet 7 [("x", ⟨"S", 3⟩)] ⟨none, some "k", none⟩ =
      ⟨.err "Text is required" 400, [("x", ⟨"S", 3⟩)], false⟩ :=
  C4_empty_text_rejected Summarize.noNet 7 _ _ (by decide)

/-- C10: the credential check runs only after the cache lookup: a request
with non-empty text, an absent or empty credential, and a live entry at the
text's key succeeds with the cached summary and cached = true, and does not
fail with the credential-required error. -/
theorem C10_cache_before_credential
    (oracle : String → String → String → Except String String)
    (now : Nat) (st : Summarize.Cache) (t : String)
    (apiKey provider : Option String) (e : Summarize.CacheEntry)
    (ht : t ≠ "") (hk : jsTruthy apiKey = false)
    (hget : Summarize.cacheGet st (Summarize.hashText t) = some e)
    (hlive : now - e.timestamp < Summarize.CACHE_DURATION) :
    (Summarize.POST oracle now st ⟨some t, apiKey, provider⟩).resp =
      .ok e.summary true ∧
    (Summarize.POST oracle now st ⟨some t, apiKey, provider⟩).resp ≠
      .err "API key is required. Please set it in Settings." 400 := by
  have h := Summarize.POST_hit oracle now st t apiKey provider e ht hget hlive
  rw [h]
  exact ⟨rfl, fun hcon => Summarize.SummarizeResponse.noConfusion hcon⟩

/-- C10 (witness): a concrete live hit with no credential supplied still
returns the cached summary. -/
theorem C10_witness :
    (Summarize.POST Summarize.noNet 100 [("2p", ⟨"hit", 50⟩)]
        ⟨some "a", none, none⟩).resp =
      Summarize.SummarizeResponse.ok "hit" true ∧
    (Summarize.POST Summarize.noNet 100 [("2p", ⟨"hit", 50⟩)]
        ⟨some "a", none, none⟩).resp ≠
      Summarize.SummarizeResponse.err
        "API key is required. Please set it in Settings." 400 :=
  C10_cache_before_credential Summarize.noNet 100 _ "a" none none ⟨"hit", 50⟩
    (by decide) (by decide) (by decide) (by decide)

/-! ### Claims about the GitHub route -/

/-- C5: when two query result lists both contain an item with the same full
name, the merged mapping holds exactly one entry under that name, namely the
first occurrence from the earlier query. -/
theorem C5_first_occurrence_wins (q1 q2 : List Github.GitHubRepo) (n : String)
    (r1 r2 : Github.GitHubRepo)
    (h1 : q1.find? (fun r => r.full_name == n) = some r1)
    (h2 : r2 ∈ q2) (h2n : r2.full_name = n) :
    (Github.mergedRepos [q1, q2]).filter (fun r => r.full_name == n) = [r1] := by
  have hfind : (([q1, q2] : List (List Github.GitHubRepo)).flatten).find?
      (fun r => r.full_name == n) = some r1 := by
    show ((q1 ++ (q2 ++ [])).find? (fun r => r.full_name == n)) = some r1
    exact find?_append_left _ _ _ _ h1
  have hfo : (Github.mergedRepos [q1, q2]).find?
      (fun r => r.full_name == n) = some r1 :=
    Github.foldl_addRepo_find? n _ [] r1 (by simp) hfind
  have huniq := Github.mergedRepos_uniq [q1, q2] n
  have hmem : r1 ∈ Github.mergedRepos [q1, q2] := List.mem_of_find?_eq_some hfo
  have hkey := List.find?_some hfo
  exact eq_singleton_of_length_le_one huniq (List.mem_filter.mpr ⟨hmem, hkey⟩)

/-- C5 (witness): two singleton query results that share a full name merge
to the earlier query's item alone. -/
theorem C5_witness :
    (Github.mergedRepos
        [[⟨1, "alpha", "org/alpha", none, "u1", 100, none, some ["ai"], "", ""⟩],
         [⟨2, "alpha", "org/alpha", none, "u2", 50, none, some ["ml"], "", ""⟩]]).filter
      (fun r => r.full_name == "org/alpha") =
      [⟨1, "alpha", "org/alpha", none, "u1", 100, none, some ["ai"], "", ""⟩] :=
  C5_first_occurrence_wins
    [⟨1, "alpha", "org/alpha", none, "u1", 100, none, some ["ai"], "", ""⟩]
    [⟨2, "alpha", "org/alpha", none, "u2", 50, none, some ["ml"], "", ""⟩]
    "org/alpha"
    ⟨1, "alpha", "org/alpha", none, "u1", 100, none, some ["ai"], "", ""⟩
    ⟨2, "alpha", "org/alpha", none, "u2", 50, none, some ["ml"], "", ""⟩
    (by decide) (by decide) (by decide)

/-- C6: an item of the merged mapping whose lower-cased, space-joined topic
list contains none of the fixed keywords as a substring is excluded from the
final project list (no output project carries its full name), while an item
whose joined topics contain at least one keyword passes the post-filter. -/
theorem C6_post_filter (results : List (List Github.GitHubRepo))
    (repo : Github.GitHubRepo) (hmem : repo ∈ Github.mergedRepos results) :
    (Github.hasAITopic repo = false →
      (Github.GET results).all (fun p => !(p.name == repo.full_name)) = true) ∧
    (Github.hasAITopic repo = true →
      repo ∈ (Github.mergedRepos results).filter Github.hasAITopic) := by
  constructor
  · intro hfalse
    rw [List.all_eq_true]
    intro p hp
    have hp1 : p ∈ sortDesc (((Github.mergedRepos results).filter
        Github.hasAITopic).map Github.toProject) :=
      List.mem_of_mem_take hp
    have hp2 : p ∈ ((Github.mergedRepos results).filter
        Github.hasAITopic).map Github.toProject :=
      (List.perm_insertionSort starsGE _).mem_iff.mp hp1
    obtain ⟨r, hr, hrp⟩ := List.mem_map.mp hp2
    rw [List.mem_filter] at hr
    have hne : p.name ≠ repo.full_name := by
      intro hname
      have hrname : r.full_name = repo.full_name := by
        have h1 : r.full_name = p.name := by rw [← hrp]; rfl
        rw [h1, hname]
      have hrr : r = repo :=
        Github.mergedRepos_name_inj results hr.1 hmem hrname
      have htrue := hr.2
      rw [hrr, hfalse] at htrue
      exact Bool.noConfusion htrue
    simp [hne]
  · intro htrue
    exact List.mem_filter.mpr ⟨hmem, htrue⟩

/-- C6 (witness): a merged item with only the topic "game" carries no
keyword and its name is absent from the output, and the same batch's item
with topic "ai" passes the post-filter. -/
theorem C6_witness :
    (Github.hasAITopic ⟨3, "g", "org/game", none, "u", 40, none, some ["game"], "", ""⟩ = false →
      (Github.GET [[⟨3, "g", "org/game", none, "u", 40, none, some ["game"], "", ""⟩]]).all
        (fun p => !(p.name == "org/game")) = true) ∧
    (Github.hasAITopic ⟨3, "g", "org/game", none, "u", 40, none, some ["game"], "", ""⟩ = true →
      (⟨3, "g", "org/game", none, "u", 40, none, some ["game"], "", ""⟩ : Github.GitHubRepo) ∈
        (Github.mergedRepos [[⟨3, "g", "org/game", none, "u", 40, none, some ["game"], "", ""⟩]]).filter
          Github.hasAITopic) :=
  C6_post_filter [[⟨3, "g", "org/game", none, "u", 40, none, some ["game"], "", ""⟩]]
    ⟨3, "g", "org/game", none, "u", 40, none, some ["game"], "", ""⟩ (by decide)

/-- C7: for every input batch, the GitHub route's output is sorted by stars
in non-increasing order and holds at most 50 projects. -/
theorem C7_sorted_truncated (results : List (List Github.GitHubRepo)) :
    List.Sorted starsGE (Github.GET results) ∧
    (Github.GET results).length ≤ 50 := by
  constructor
  · exact List.Pairwise.sublist (List.take_sublist _ _)
      (List.sorted_insertionSort starsGE _)
  · exact List.length_take_le _ _

/-! ### Claim about the Hugging Face route -/

/-- C8: a fetched space appears in the Hugging Face route's output (as its
mapped project) exactly when its resolved likes are strictly positive and
its resolved identifier is non-empty; in particular likes 0 excludes and
likes 1 with a non-empty id includes. -/
theorem C8_popularity_filter (spaces : List Huggingface.HFSpace)
    (s : Huggingface.HFSpace) (hmem : s ∈ spaces) :
    Huggingface.toHFProject s ∈ Huggingface.GET spaces ↔
      (0 < Huggingface.resolveLikes s ∧ Huggingface.resolveId s ≠ "") := by
  constructor
  · intro h
    have h1 : Huggingface.toHFProject s ∈ Huggingface.processSpaces spaces :=
      (List.perm_insertionSort starsGE _).mem_iff.mp h
    have h2 := Huggingface.processSpaces_stars_pos spaces []
      (by intro p hp; cases hp) _ h1
    exact ⟨h2.1, h2.2⟩
  · rintro ⟨hl, hid⟩
    have h1 := Huggingface.processSpaces_mem spaces [] s hmem hl hid
    exact (List.perm_insertionSort starsGE _).mem_iff.mpr h1

/-- C8 (witness): a space with one like and a non-empty id appears in the
output exactly as the filter predicts. -/
theorem C8_witness :
    Huggingface.toHFProject
        ⟨some "org/demo", none, some "A demo", none, none, none,
          some 1, none, none, some "gradio", none⟩ ∈
      Huggingface.GET
        [⟨some "org/demo", none, some "A demo", none, none, none,
          some 1, none, none, some "gradio", none⟩] ↔
      (0 < Huggingface.resolveLikes
          ⟨some "org/demo", none, some "A demo", none, none, none,
            some 1, none, none, some "gradio", none⟩ ∧
        Huggingface.resolveId
          ⟨some "org/demo", none, some "A demo", none, none, none,
            some 1, none, none, some "gradio", none⟩ ≠ "") :=
  C8_popularity_filter _ _ (by decide)

/-! ### Claim about the aggregator -/

/-- C9: the aggregator's fan-in: one failed source yields the other source's
output sorted descending with no aggregate error; both failing yields the
single aggregate error and an empty list; both succeeding yields the full
concatenation (no cross-source deduplication: the sorted list is a
permutation of the concatenation) sorted descending by stars. -/
theorem C9_aggregator (g h : List Project) :
    Page.fetchProjects Page.FetchOutcome.failed (Page.FetchOutcome.ok h) =
      ⟨none, sortDesc h⟩ ∧
    Page.fetchProjects (Page.FetchOutcome.ok g) Page.FetchOutcome.failed =
      ⟨none, sortDesc g⟩ ∧
    Page.fetchProjects Page.FetchOutcome.failed Page.FetchOutcome.failed =
      ⟨some "Failed to fetch projects", []⟩ ∧
    Page.fetchProjects (Page.FetchOutcome.ok g) (Page.FetchOutcome.ok h) =
      ⟨none, sortDesc (g ++ h)⟩ ∧
    (sortDesc (g ++ h)).Perm (g ++ h) ∧
    List.Sorted starsGE (sortDesc (g ++ h)) := by
  refine ⟨rfl, ?_, rfl, rfl, List.perm_insertionSort starsGE _,
    List.sorted_insertionSort starsGE _⟩
  show (⟨none, sortDesc (g ++ [])⟩ : Page.FetchState) = ⟨none, sortDesc g⟩
  rw [List.append_nil]
